import Mathlib

/-!
Verification development for `cromulent/extract.py` (dimension and monetary
extraction from free-text catalog records).

Modelling conventions:
* Python strings are Lean `String`s; scanning works over `List Char`.
* Python floats are modelled as exact rationals (`ℚ`).  Every numeric value
  exercised by the properties below is a small decimal that IEEE doubles
  represent exactly, so the rational model agrees with CPython on them.
  `pyFloat` models `float(str)` on finite decimal literals (sign, digits,
  decimal point, exponent, surrounding whitespace); `floatStr` models
  `str(float)` on rationals with a finite decimal expansion.
* Python ints and floats flow through the same variables in the source
  (`inches = 0` then `inches += float(...)`), so accumulators are a `PyNum`
  sum type whose `str` distinguishes `str(0) = "0"` from `str(0.0) = "0.0"`.
* `warnings.warn` calls are modelled by a `Warn` value appended to a list
  returned alongside each result, one constructor per source-format string.
* The regular expressions of the source are modelled by hand-rolled scanners
  over `List Char` that follow the patterns alternative-by-alternative in the
  source's order, committing to the regex engine's first preference at each
  choice point (greedy quantifiers, leftmost alternative).  Whenever such a
  scanner succeeds it produces the same captures as CPython's `re`; inputs
  needing cross-token backtracking (none of the inputs below do) may be
  rejected by the model while `re` accepts them.
-/

namespace Crom

/-- Python `\s` on ASCII whitespace. -/
def isSpaceC (c : Char) : Bool :=
  c == ' ' || c == '\t' || c == '\n' || c == '\x0b' || c == '\x0c' || c == '\r'

/-- Python `\d` (ASCII digits). -/
def isDigitC (c : Char) : Bool := c.isDigit

/-- Python `\w` (ASCII letters, digits, underscore). -/
def isWordC (c : Char) : Bool := c.isAlphanum || c == '_'

/-- Python `str.strip()`: remove leading and trailing whitespace. -/
def pyStrip (s : String) : String :=
  (((s.toList.dropWhile isSpaceC).reverse.dropWhile isSpaceC).reverse).asString

/-- Python `str.lower()` (ASCII case folding suffices for the source's data). -/
def pyLower (s : String) : String := (s.toList.map Char.toLower).asString

/-- `needle` is a prefix of `hay`. -/
def isPfx : List Char → List Char → Bool
  | [], _ => true
  | _ :: _, [] => false
  | a :: as, b :: bs => a == b && isPfx as bs

/-- `containsL needle hay`: `needle` occurs as a contiguous sublist of `hay`. -/
def containsL (needle : List Char) : List Char → Bool
  | [] => isPfx needle []
  | hay@(_ :: t) => isPfx needle hay || containsL needle t

/-- Python `needle in hay` on strings. -/
def pyIn (needle hay : String) : Bool := containsL needle.toList hay.toList

/-- Left-to-right non-overlapping replacement on character lists
(Python `str.replace` with a non-empty needle); `fuel` bounds the scan. -/
def replaceL (needle repl : List Char) : ℕ → List Char → List Char
  | _, [] => []
  | 0, cs => cs
  | fuel + 1, cs@(c :: t) =>
    if isPfx needle cs && !needle.isEmpty then
      repl ++ replaceL needle repl fuel (cs.drop needle.length)
    else c :: replaceL needle repl fuel t

/-- Python `s.replace(needle, repl)` (non-empty needle). -/
def pyReplace (s needle repl : String) : String :=
  (replaceL needle.toList repl.toList s.length s.toList).asString

/-- Python `s.startswith(p)`. -/
def pyStarts (s p : String) : Bool := isPfx p.toList s.toList

/-- Numeric value of a list of ASCII digits. -/
def natOfDigits (ds : List Char) : ℕ :=
  ds.foldl (fun a c => a * 10 + (c.toNat - 48)) 0

/-- Rational addition through `mkRat` (kernel-computable, unlike the
`@[irreducible]` `Rat.add`). -/
def qadd (a b : ℚ) : ℚ := mkRat (a.num * b.den + b.num * a.den) (a.den * b.den)

/-- Rational multiplication through `mkRat`. -/
def qmul (a b : ℚ) : ℚ := mkRat (a.num * b.num) (a.den * b.den)

/-- Rational division through `mkRat` (`a / 0 = 0`; never exercised). -/
def qdiv (a b : ℚ) : ℚ :=
  if b.num < 0 then mkRat (-(a.num * b.den)) (a.den * b.num.natAbs)
  else mkRat (a.num * b.den) (a.den * b.num.natAbs)

/-- `10 ^ k` as a rational. -/
def pow10 (k : ℕ) : ℚ := ((10 ^ k : ℕ) : ℚ)

/-- Model of Python `float(s)` on finite decimal literals: optional
whitespace, sign, integer/fractional digits, optional exponent, optional
trailing whitespace.  (`inf`/`nan`/underscored literals are outside the
model's scope; no input below uses them.) -/
def pyFloat (s : String) : Option ℚ :=
  let cs := s.toList.dropWhile isSpaceC
  let sgncs : Bool × List Char :=
    match cs with
    | '+' :: r => (false, r)
    | '-' :: r => (true, r)
    | _ => (false, cs)
  let neg := sgncs.1
  let ip := sgncs.2.span isDigitC
  let fp : Option (List Char) × List Char :=
    match ip.2 with
    | '.' :: r =>
      let d := r.span isDigitC
      (some d.1, d.2)
    | _ => (none, ip.2)
  if ip.1.isEmpty && (fp.1.getD []).isEmpty then none
  else
    let frac := fp.1.getD []
    let mant : ℚ := qadd ((natOfDigits ip.1 : ℕ) : ℚ) (qdiv ((natOfDigits frac : ℕ) : ℚ) (pow10 frac.length))
    let fin : Option (ℚ × List Char) :=
      match fp.2 with
      | c :: r =>
        if c == 'e' || c == 'E' then
          let esgn : Bool × List Char :=
            match r with
            | '+' :: r2 => (false, r2)
            | '-' :: r2 => (true, r2)
            | _ => (false, r)
          let ed := esgn.2.span isDigitC
          if ed.1.isEmpty then none
          else
            let e : ℚ := pow10 (natOfDigits ed.1)
            some (if esgn.1 then qdiv mant e else qmul mant e, ed.2)
        else some (mant, fp.2)
      | [] => some (mant, [])
    match fin with
    | none => none
    | some vr =>
      if (vr.2.dropWhile isSpaceC).isEmpty then
        some (if neg then mkRat (-vr.1.num) vr.1.den else vr.1)
      else none

/-- Fractional decimal digits of `r / den`, up to `fuel` digits. -/
def decDigits : ℕ → ℕ → ℕ → List Char
  | 0, _, _ => []
  | _, 0, _ => []
  | fuel + 1, r, den =>
    let r10 := r * 10
    Char.ofNat (48 + r10 / den) :: decDigits fuel (r10 % den) den

/-- Model of Python `str(float)` for rationals with a finite decimal
expansion (the only floats the properties below render). -/
def floatStr (q : ℚ) : String :=
  if q.den = 1 then toString q.num ++ ".0"
  else
    let sign := if q.num < 0 then "-" else ""
    let na := q.num.natAbs
    sign ++ toString (na / q.den) ++ "." ++ (decDigits 17 (na % q.den) q.den).asString

/-- A Python number: `int` or `float` (the source's accumulators start as
`int 0` and become floats on the first `+=`). -/
inductive PyNum
  | i (n : ℤ)
  | f (q : ℚ)
deriving DecidableEq

/-- The rational value of a `PyNum`. -/
def PyNum.q : PyNum → ℚ
  | .i n => (n : ℚ)
  | .f q => q

/-- Python truthiness of a number (`0` and `0.0` are falsy). -/
def PyNum.truthy : PyNum → Bool
  | .i n => n != 0
  | .f q => q != 0

/-- `x + q` where `q` came from `float(...)`: the result is a float. -/
def PyNum.addF (x : PyNum) (q : ℚ) : PyNum := .f (qadd x.q q)

/-- Python `str()` of a number. -/
def PyNum.pstr : PyNum → String
  | .i n => toString n
  | .f q => floatStr q

/-- Python truthiness of an optional string (`None` and `''` are falsy). -/
def optTruthy : Option String → Bool
  | none => false
  | some s => s != ""

/-- The `Dimension` namedtuple of the source. -/
structure Dimension where
  value : String
  unit : Option String
  which : Option String
deriving DecidableEq

/-- One `dimension_re` match: captured number text and optional unit text. -/
structure Token where
  val : String
  unit : Option String
deriving DecidableEq

/-- One `warnings.warn` call, one constructor per source format string. -/
inductive Warn
  | badValue (s : String)            -- '*** failed to canonicalize dimension value: %s'
  | badUnit (s : String)             -- '*** not a recognized unit: %s'
  | badWhich (s : String)            -- '*** Unknown which dimension: %s'
  | unrecUnitNorm (s : String)       -- '*** unrecognized unit: %s' (normalize_dimension)
  | unrecUnitLabel                   -- '*** unrecognized unit: {d.unit}' (label loop, literal text)
  | mixedSystems (ds : List Dimension)  -- '*** dimension used a mix of unit systems ...'
  | dbg1 (r : Option (List Dimension)) (grp : String) (hint : String)  -- 'd1: %s %s %s'
  | dbg2 (r : Option (List Dimension)) (grp : String) (hint : String)  -- 'd2: %s %s %s'
  | failedParse (s : String)         -- '*** Failed to parse dimensions: %s'
  | noCurrency (s : String)          -- '*** No currency instance defined for %s'
deriving DecidableEq

/-- The substitution chain of `_canonical_value` (`,`→`.`, quarter
fractions to decimals). -/
def canonicalValueSubst (value : String) : String :=
  pyReplace (pyReplace (pyReplace (pyReplace value "," ".") " 1/4" ".25") " 1/2" ".5") " 3/4" ".75"

/-- `_canonical_value`: `None` when a `/` survives the substitutions;
a leading `.` gets a `0` prefix. -/
def canonical_value (value : String) : Option String :=
  let v := canonicalValueSubst value
  if pyIn "/" v then none
  else if pyStarts v "." then some ("0" ++ v)
  else some v

/-- `_canonical_unit`: map a matched unit alias to `inches`/`feet`/`cm`. -/
def canonical_unit (value : Option String) : Option String :=
  match value with
  | none => none
  | some v0 =>
    let v := pyLower v0
    if pyIn "in" v || (["pouces", "pouce", "duymen", "d.", "d"].contains v) || v == "\"" then
      some "inches"
    else if pyIn "ft" v || (["pieds", "pied", "feet", "foot", "voeten", "v.", "v"].contains v) || v == "'" then
      some "feet"
    else if pyIn "cm" v then some "cm"
    else none

/-- `_canonical_which`: axis hint to `width`/`height`, warning on anything
else non-empty. -/
def canonical_which (value : Option String) : Option String × List Warn :=
  match value with
  | none => (none, [])
  | some v0 =>
    if v0 == "" then (none, [])
    else
      let v := pyLower (pyStrip v0)
      if pyStarts v "w" then (some "width", [])
      else if pyStarts v "h" then (some "height", [])
      else (none, [Warn.badWhich v])

/-! ### The token grammar (`number_pattern`, `unit_pattern`, `dimension_re`) -/

/-- `number_pattern = ((?:\d+\s+\d+/\d+)|(?:\d+(?:[.,]\d+)?))`, first
alternative (mixed fraction) tried first, as the regex engine does.
Returns the matched characters and the rest. -/
def matchNumber (cs : List Char) : Option (List Char × List Char) :=
  let alt1 : Option (List Char × List Char) :=
    let d1 := cs.span isDigitC
    if d1.1.isEmpty then none
    else
      let sp := d1.2.span isSpaceC
      if sp.1.isEmpty then none
      else
        let d2 := sp.2.span isDigitC
        if d2.1.isEmpty then none
        else
          match d2.2 with
          | '/' :: r =>
            let d3 := r.span isDigitC
            if d3.1.isEmpty then none
            else some (d1.1 ++ sp.1 ++ d2.1 ++ '/' :: d3.1, d3.2)
          | _ => none
  match alt1 with
  | some r => some r
  | none =>
    let d1 := cs.span isDigitC
    if d1.1.isEmpty then none
    else
      match d1.2 with
      | c :: r =>
        if c == '.' || c == ',' then
          let d2 := r.span isDigitC
          if d2.1.isEmpty then some (d1.1, d1.2)
          else some (d1.1 ++ c :: d2.1, d2.2)
        else some (d1.1, d1.2)
      | [] => some (d1.1, [])

/-- The alternatives of `unit_pattern`, in source order; each is a literal
plus an optional greedy trailing character (`d[.]?`, `pouces?`, ...). -/
def unitAlts : List (String × Option Char) :=
  [("'", none), ("\"", none), ("d", some '.'), ("duymen", none),
   ("pouce", some 's'), ("inches", none), ("inch", none), ("in", some '.'),
   ("pied", some 's'), ("v", some '.'), ("voeten", none), ("feet", none),
   ("foot", none), ("ft", some '.'), ("cm", none)]

/-- Strip a literal prefix. -/
def stripPfx : List Char → List Char → Option (List Char)
  | [], cs => some cs
  | _ :: _, [] => none
  | a :: as, b :: bs => if a == b then stripPfx as bs else none

/-- Try one unit alternative (literal plus optional greedy char). -/
def tryAlt (lit : List Char) (opt : Option Char) (cs : List Char) :
    Option (List Char × List Char) :=
  match stripPfx lit cs with
  | none => none
  | some rest =>
    match opt, rest with
    | some c, c2 :: r => if c2 == c then some (lit ++ [c], r) else some (lit, rest)
    | _, _ => some (lit, rest)

/-- Ordered alternation over the unit alternatives. -/
def matchUnitAux : List (String × Option Char) → List Char → Option (List Char × List Char)
  | [], _ => none
  | (lit, opt) :: alts, cs =>
    match tryAlt lit.toList opt cs with
    | some r => some r
    | none => matchUnitAux alts cs

/-- `unit_pattern` as a scanner. -/
def matchUnit (cs : List Char) : Option (List Char × List Char) :=
  matchUnitAux unitAlts cs

/-- One `dimension_re` match at the current position:
`\s* (number \s* (?:unit)?)`.  Returns the token and the rest (the regex
match span includes the whitespace between number and unit). -/
def matchDim (cs : List Char) : Option (Token × List Char) :=
  let sp := cs.span isSpaceC
  match matchNumber sp.2 with
  | none => none
  | some nr =>
    let sp2 := nr.2.span isSpaceC
    match matchUnit sp2.2 with
    | some ur => some (⟨nr.1.asString, some ur.1.asString⟩, ur.2)
    | none => some (⟨nr.1.asString, none⟩, sp2.2)

/-- `re.finditer(dimension_re, value)`: leftmost non-overlapping matches;
on failure at a position, advance one character. -/
def scanTokens : ℕ → List Char → List Token
  | 0, _ => []
  | _, [] => []
  | fuel + 1, cs =>
    match matchDim cs with
    | some tr => tr.1 :: scanTokens fuel tr.2
    | none => scanTokens fuel cs.tail

/-- All `dimension_re` tokens of a string. -/
def findDims (s : String) : List Token := scanTokens (s.length + 1) s.toList

/-! ### `parse_simple_dimensions` -/

/-- The loop body of `parse_simple_dimensions`: canonicalize each token,
failing the whole group on a bad value, warning on unrecognized units,
re-canonicalizing the `which` hint each iteration. -/
def parseLoop : List Token → Option String → List Dimension → List Warn →
    Option (List Dimension) × List Warn
  | [], _, dims, ws => if dims.isEmpty then (none, ws) else (some dims, ws)
  | t :: ts, which, dims, ws =>
    match canonical_value t.val with
    | none => (none, ws ++ [Warn.badValue t.val])
    | some v =>
      if v == "" then (none, ws ++ [Warn.badValue t.val])
      else
        let u := canonical_unit t.unit
        let ws1 := ws ++ (if optTruthy t.unit && u.isNone then [Warn.badUnit (t.unit.getD "")] else [])
        let ww := canonical_which which
        parseLoop ts ww.1 (dims ++ [⟨v, u, ww.1⟩]) (ws1 ++ ww.2)

/-- `parse_simple_dimensions(value, which)`. -/
def parse_simple_dimensions (value : Option String) (which : Option String) :
    Option (List Dimension) × List Warn :=
  match value with
  | none => (none, [])
  | some v => parseLoop (findDims (pyStrip v)) which [] []

/-! ### `normalize_dimension` and `normalized_dimension_object` -/

/-- The accumulator state of `normalize_dimension`'s loop (`unknown`,
`inches`, `cm` start as Python `int 0`; `which` is overwritten by every
element). -/
structure NState where
  unknown : PyNum
  inches : PyNum
  cm : PyNum
  which : Option String
deriving DecidableEq

/-- Outcome of the loop of `normalize_dimension`: a `ValueError` escaping
from `float(d.value)`, an early return on an unrecognized unit, or the
final accumulator state. -/
inductive LoopOut
  | err
  | unrec (u : String)
  | done (st : NState)
deriving DecidableEq

/-- The loop of `normalize_dimension`, branch for branch. -/
def normLoop : NState → List Dimension → LoopOut
  | st, [] => .done st
  | st, d :: ds =>
    let st1 : NState := { st with which := d.which }
    if d.unit == some "inches" then
      match pyFloat d.value with
      | none => .err
      | some q => normLoop { st1 with inches := st1.inches.addF q } ds
    else if d.unit == some "feet" then
      match pyFloat d.value with
      | none => .err
      | some q => normLoop { st1 with inches := st1.inches.addF (qmul 12 q) } ds
    else if d.unit == some "cm" then
      match pyFloat d.value with
      | none => .err
      | some q => normLoop { st1 with cm := st1.cm.addF q } ds
    else if d.unit == none then
      match pyFloat d.value with
      | none => .err
      | some q => normLoop { st1 with unknown := st1.unknown.addF q } ds
    else .unrec (d.unit.getD "")

/-- Result of `normalize_dimension`: a propagated `ValueError`, or the
returned `Dimension`/`None`. -/
inductive NRes
  | err
  | ok (r : Option Dimension)
deriving DecidableEq

/-- `normalize_dimension(dimensions)`: sum values by unit class and return a
single `Dimension` exactly when one accumulator is non-zero.  Note the
source's unit-less branch returns `str(cm)` (the untouched `cm`
accumulator), not the unit-less sum. -/
def normalize_dimension (dimensions : List Dimension) : NRes × List Warn :=
  match normLoop ⟨.i 0, .i 0, .i 0, none⟩ dimensions with
  | .err => (.err, [])
  | .unrec u => (.ok none, [Warn.unrecUnitNorm u])
  | .done st =>
    let used : ℕ :=
      (if st.inches.truthy then 1 else 0) + (if st.cm.truthy then 1 else 0) +
        (if st.unknown.truthy then 1 else 0)
    if used ≠ 1 then (.ok none, [Warn.mixedSystems dimensions])
    else if st.inches.truthy then (.ok (some ⟨st.inches.pstr, some "inches", st.which⟩), [])
    else if st.cm.truthy then (.ok (some ⟨st.cm.pstr, some "cm", st.which⟩), [])
    else (.ok (some ⟨st.cm.pstr, none, st.which⟩), [])

/-- The label loop of `normalized_dimension_object`: render each original
measurement, failing on an unrecognized unit. -/
def buildLabels : List Dimension → Option (List String)
  | [] => some []
  | d :: ds =>
    let piece : Option String :=
      if d.unit == some "inches" then some (d.value ++ " inches")
      else if d.unit == some "feet" then some (d.value ++ " feet")
      else if d.unit == some "cm" then some (d.value ++ " cm")
      else if d.unit == none then some d.value
      else none
    match piece with
    | none => none
    | some p => (buildLabels ds).map (p :: ·)

/-- Result of `normalized_dimension_object`: propagated `ValueError`,
`None`, or the `(normalized, label)` pair. -/
inductive NDres
  | err
  | fail
  | ok (d : Dimension) (label : String)
deriving DecidableEq

/-- `normalized_dimension_object(dimensions)`. -/
def normalized_dimension_object (dimensions : List Dimension) : NDres × List Warn :=
  match normalize_dimension dimensions with
  | (.err, ws) => (.err, ws)
  | (.ok none, ws) => (.fail, ws)
  | (.ok (some nd), ws) =>
    match buildLabels dimensions with
    | none => (.fail, ws ++ [Warn.unrecUnitLabel])
    | some labels => (.ok nd (String.intercalate ", " labels), ws)

/-! ### The pattern matchers (`simple_dimensions_re_x1`, `simple_dimensions_re_x2`, `french_dimensions_re`, `dutch_dimensions_re`) -/

/-- `dimension_pattern = (number \s* (?:unit)?)` as used inside the cleaner
patterns (no leading whitespace).  Returns captured characters and rest. -/
def dimCore (cs : List Char) : Option (List Char × List Char) :=
  match matchNumber cs with
  | none => none
  | some nr =>
    let sp := nr.2.span isSpaceC
    match matchUnit sp.2 with
    | some ur => some (nr.1 ++ sp.1 ++ ur.1, ur.2)
    | none => some (nr.1 ++ sp.1, sp.2)

/-- `(?:dim\s*)+` (greedy): at least one dimension token, each followed by
optional whitespace, all captured. -/
def dimsPlusA : ℕ → List Char → Option (List Char × List Char)
  | 0, _ => none
  | fuel + 1, cs =>
    match dimCore cs with
    | none => none
    | some dr =>
      let sp := dr.2.span isSpaceC
      match dimsPlusA fuel sp.2 with
      | some rest => some (dr.1 ++ sp.1 ++ rest.1, rest.2)
      | none => some (dr.1 ++ sp.1, sp.2)

/-- `(?:\s*dim)+` (greedy): the `d2` side of the plain two-axis pattern. -/
def dimsPlusB : ℕ → List Char → Option (List Char × List Char)
  | 0, _ => none
  | fuel + 1, cs =>
    let sp := cs.span isSpaceC
    match dimCore sp.2 with
    | none => none
    | some dr =>
      match dimsPlusB fuel dr.2 with
      | some rest => some (sp.1 ++ dr.1 ++ rest.1, rest.2)
      | none => some (sp.1 ++ dr.1, dr.2)

/-- Candidate matches for the optional width/height marker
`(?:\s*((?<!\w)[wh]|width|height))?`, in the regex engine's preference
order, ending with the empty (group unmatched) candidate.  `prev` is the
character before the marker position, for the `(?<!\w)` lookbehind. -/
def markerCands (prev : Option Char) (cs : List Char) : List (List Char × List Char) :=
  let sp := cs.span isSpaceC
  let wordBefore : Bool :=
    if sp.1.isEmpty then
      match prev with
      | none => false
      | some c => isWordC c
    else false
  let whCand : List (List Char × List Char) :=
    match sp.2 with
    | c :: r => if (c == 'w' || c == 'h') && !wordBefore then [(sp.1 ++ [c], r)] else []
    | [] => []
  let widthCand : List (List Char × List Char) :=
    match stripPfx "width".toList sp.2 with
    | some r => [(sp.1 ++ "width".toList, r)]
    | none => []
  let heightCand : List (List Char × List Char) :=
    match stripPfx "height".toList sp.2 with
    | some r => [(sp.1 ++ "height".toList, r)]
    | none => []
  whCand ++ widthCand ++ heightCand ++ [([], cs)]

/-- First candidate on which the continuation succeeds (the regex engine's
backtracking over an alternation). -/
def firstSome {α β : Type} (f : α → Option β) : List α → Option β
  | [] => none
  | a :: as =>
    match f a with
    | some b => some b
    | none => firstSome f as

/-- The captures of `simple_dimensions_re_x2`. -/
structure X2Groups where
  d1 : String
  d1w : String
  d2 : String
  d2w : String
deriving DecidableEq

/-- `simple_dimensions_re_x2.match(value)`:
`(?P<d1>(?:dim\s*)+)(?P<d1w>marker?)(?:,)?\s*(x|by)(?P<d2>(?:\s*dim)+)(?P<d2w>marker?)`. -/
def matchSimpleX2 (s : String) : Option X2Groups :=
  let cs := s.toList
  match dimsPlusA (cs.length + 1) cs with
  | none => none
  | some d1r =>
    firstSome (fun mk =>
      let r3 : List Char :=
        match mk.2 with
        | ',' :: t => t
        | _ => mk.2
      let sp := r3.span isSpaceC
      let afterX : Option (List Char) :=
        match sp.2 with
        | 'x' :: r => some r
        | 'b' :: 'y' :: r => some r
        | _ => none
      match afterX with
      | none => none
      | some r5 =>
        match dimsPlusB (r5.length + 1) r5 with
        | none => none
        | some d2r =>
          match markerCands d2r.1.getLast? d2r.2 with
          | mk2 :: _ => some ⟨d1r.1.asString, mk.1.asString, d2r.1.asString, mk2.1.asString⟩
          | [] => none)
      (markerCands d1r.1.getLast? d1r.2)

/-- The captures of `simple_dimensions_re_x1`. -/
structure X1Groups where
  d1 : String
  d1w : String
deriving DecidableEq

/-- `simple_dimensions_re_x1.match(value)`: `(?P<d1>(?:dim\s*)+)(?P<d1w>marker?)`. -/
def matchSimpleX1 (s : String) : Option X1Groups :=
  let cs := s.toList
  match dimsPlusA (cs.length + 1) cs with
  | none => none
  | some d1r =>
    match markerCands d1r.1.getLast? d1r.2 with
    | mk :: _ => some ⟨d1r.1.asString, mk.1.asString⟩
    | [] => none

/-- `french_dimensions_re.match(value)`:
`[Hh]aut(?:eur)? (?P<d1>(?:dim\s*)+), [Ll]arge(?:ur)? (?P<d2>(?:dim\s*)+)`. -/
def matchFrench (s : String) : Option (String × String) :=
  let cs := s.toList
  let afterHaut : Option (List Char) :=
    match cs with
    | c :: r =>
      if c == 'H' || c == 'h' then
        match stripPfx "aut".toList r with
        | some r2 =>
          (match stripPfx "eur ".toList r2 with
           | some r3 => some r3
           | none =>
             match r2 with
             | ' ' :: r3 => some r3
             | _ => none)
        | none => none
      else none
    | [] => none
  match afterHaut with
  | none => none
  | some r =>
    match dimsPlusA (r.length + 1) r with
    | none => none
    | some d1r =>
      match d1r.2 with
      | ',' :: ' ' :: r2 =>
        (match r2 with
         | c :: r3 =>
           if c == 'L' || c == 'l' then
             match stripPfx "arge".toList r3 with
             | some r4 =>
               let afterLarge : Option (List Char) :=
                 match stripPfx "ur ".toList r4 with
                 | some r5 => some r5
                 | none =>
                   match r4 with
                   | ' ' :: r5 => some r5
                   | _ => none
               match afterLarge with
               | none => none
               | some r5 =>
                 match dimsPlusA (r5.length + 1) r5 with
                 | none => none
                 | some d2r => some (d1r.1.asString, d2r.1.asString)
             | none => none
           else none
         | [] => none)
      | _ => none

/-- One Dutch axis marker `[Hh]oogh?[.]?|[Bb]reedt?` (greedy optionals). -/
def dutchMarker (cs : List Char) : Option (List Char × List Char) :=
  match cs with
  | c :: r =>
    if c == 'H' || c == 'h' then
      match stripPfx "oog".toList r with
      | some r2 =>
        let hr : List Char × List Char :=
          match r2 with
          | 'h' :: r3 => (c :: "oogh".toList, r3)
          | _ => (c :: "oog".toList, r2)
        (match hr.2 with
         | '.' :: r4 => some (hr.1 ++ ['.'], r4)
         | _ => some hr)
      | none => none
    else if c == 'B' || c == 'b' then
      match stripPfx "reed".toList r with
      | some r2 =>
        (match r2 with
         | 't' :: r3 => some (c :: "reedt".toList, r3)
         | _ => some (c :: "reed".toList, r2))
      | none => none
    else none
  | [] => none

/-- The captures of `dutch_dimensions_re`. -/
structure DutchGroups where
  d1w : String
  d1 : String
  d2w : String
  d2 : String
deriving DecidableEq

/-- `dutch_dimensions_re.match(value)`:
`(?P<d1w>marker) (?P<d1>(?:dim\s*)+), (?P<d2w>marker) (?P<d2>(?:dim\s*)+)`. -/
def matchDutch (s : String) : Option DutchGroups :=
  match dutchMarker s.toList with
  | none => none
  | some m1 =>
    match m1.2 with
    | ' ' :: r1 =>
      (match dimsPlusA (r1.length + 1) r1 with
       | none => none
       | some d1r =>
         match d1r.2 with
         | ',' :: ' ' :: r2 =>
           (match dutchMarker r2 with
            | none => none
            | some m2 =>
              match m2.2 with
              | ' ' :: r3 =>
                (match dimsPlusA (r3.length + 1) r3 with
                 | none => none
                 | some d2r =>
                   some ⟨m1.1.asString, d1r.1.asString, m2.1.asString, d2r.1.asString⟩)
              | _ => none)
         | _ => none)
    | _ => none

/-! ### The cleaners and `extract_physical_dimensions` -/

/-- `simple_dimensions_cleaner_x2(value)`. -/
def simple_dimensions_cleaner_x2 (value : String) :
    Option (List (List Dimension)) × List Warn :=
  match matchSimpleX2 value with
  | none => (none, [])
  | some g =>
    let p1 := parse_simple_dimensions (some g.d1) (some g.d1w)
    let p2 := parse_simple_dimensions (some g.d2) (some g.d2w)
    match p1.1, p2.1 with
    | some d1, some d2 => (some [d1, d2], p1.2 ++ p2.2)
    | _, _ =>
      (none, p1.2 ++ p2.2 ++
        [Warn.dbg1 p1.1 g.d1 g.d1w, Warn.dbg2 p2.1 g.d2 g.d2w, Warn.failedParse value])

/-- `simple_dimensions_cleaner_x1(value)` (no warnings on failure). -/
def simple_dimensions_cleaner_x1 (value : String) :
    Option (List (List Dimension)) × List Warn :=
  match matchSimpleX1 value with
  | none => (none, [])
  | some g =>
    let p1 := parse_simple_dimensions (some g.d1) (some g.d1w)
    match p1.1 with
    | some d1 => (some [d1], p1.2)
    | none => (none, p1.2)

/-- `french_dimensions_cleaner_x2(value)`: first group is height, second
width. -/
def french_dimensions_cleaner_x2 (value : String) :
    Option (List (List Dimension)) × List Warn :=
  match matchFrench value with
  | none => (none, [])
  | some g =>
    let p1 := parse_simple_dimensions (some g.1) (some "h")
    let p2 := parse_simple_dimensions (some g.2) (some "w")
    match p1.1, p2.1 with
    | some d1, some d2 => (some [d1, d2], p1.2 ++ p2.2)
    | _, _ =>
      (none, p1.2 ++ p2.2 ++
        [Warn.dbg1 p1.1 g.1 "h", Warn.dbg2 p2.1 g.2 "w", Warn.failedParse value])

/-- `dutch_dimensions_cleaner_x2(value)`: height first, unless the first
marker contains `breed`, which swaps the axis hints. -/
def dutch_dimensions_cleaner_x2 (value : String) :
    Option (List (List Dimension)) × List Warn :=
  match matchDutch value with
  | none => (none, [])
  | some g =>
    let breed := pyIn "breed" (pyLower g.d1w)
    let h := if breed then "w" else "h"
    let w := if breed then "h" else "w"
    let p1 := parse_simple_dimensions (some g.d1) (some h)
    let p2 := parse_simple_dimensions (some g.d2) (some w)
    match p1.1, p2.1 with
    | some d1, some d2 => (some [d1, d2], p1.2 ++ p2.2)
    | _, _ =>
      (none, p1.2 ++ p2.2 ++
        [Warn.dbg1 p1.1 g.d1 "h", Warn.dbg2 p2.1 g.d2 "w", Warn.failedParse value])

/-- `dimensions_cleaner(value)`: the four strategies in priority order,
first success wins; warnings accumulate across attempts. -/
def dimensions_cleaner (value : Option String) :
    Option (List (List Dimension)) × List Warn :=
  match value with
  | none => (none, [])
  | some v =>
    let r1 := simple_dimensions_cleaner_x2 v
    match r1.1 with
    | some d => (some d, r1.2)
    | none =>
      let r2 := french_dimensions_cleaner_x2 v
      match r2.1 with
      | some d => (some d, r1.2 ++ r2.2)
      | none =>
        let r3 := dutch_dimensions_cleaner_x2 v
        match r3.1 with
        | some d => (some d, r1.2 ++ r2.2 ++ r3.2)
        | none =>
          let r4 := simple_dimensions_cleaner_x1 v
          match r4.1 with
          | some d => (some d, r1.2 ++ r2.2 ++ r3.2 ++ r4.2)
          | none => (none, r1.2 ++ r2.2 ++ r3.2 ++ r4.2)

/-- Modelled from the spec: the three vocabulary classes a dimension record
is emitted with (`vocab.Height`, `vocab.Width`, `vocab.PhysicalDimension`;
the vocabulary module itself is outside `src/`). -/
inductive DimCls
  | height
  | width
  | physicalDimension
deriving DecidableEq

/-- Modelled from the spec: one emitted dimension record `{axis, value,
unit, label}`; `label` is the content of the attached `model.Name`, and
`unit` is the registry key of the resolved unit instance (absent when the
registry lacks the key or the dimension is unit-less). -/
structure DimRecord where
  cls : DimCls
  label : String
  value : String
  unit : Option String
deriving DecidableEq

/-- Modelled from the spec: the read-only unit registry (`vocab.instances`),
externally populated with the canonical unit names. -/
def stdInstances (u : String) : Bool := u == "inches" || u == "cm"

/-- The generator body of `extract_physical_dimensions`: one record per
group that normalizes; `none` in the first component models a `ValueError`
escaping `float()`. -/
def emitRecords (instances : String → Bool) :
    List (List Dimension) → Option (List DimRecord) × List Warn
  | [] => (some [], [])
  | g :: gs =>
    match normalized_dimension_object g with
    | (.err, ws) => (none, ws)
    | (.fail, ws) =>
      let rest := emitRecords instances gs
      (rest.1, ws ++ rest.2)
    | (.ok d label, ws) =>
      let rec1 : DimRecord :=
        { cls :=
            if d.which == some "height" then .height
            else if d.which == some "width" then .width
            else .physicalDimension,
          label := label, value := d.value,
          unit :=
            match d.unit with
            | some u => if instances u then some u else none
            | none => none }
      let rest := emitRecords instances gs
      (rest.1.map (rec1 :: ·), ws ++ rest.2)

/-- `extract_physical_dimensions(dimstr)` with the unit registry as an
explicit parameter. -/
def extract_physical_dimensions (instances : String → Bool) (dimstr : String) :
    Option (List DimRecord) × List Warn :=
  match dimensions_cleaner (some dimstr) with
  | (none, ws) => (some [], ws)
  | (some groups, ws) =>
    let r := emitRecords instances groups
    (r.1, ws ++ r.2)

/-! ### `extract_monetary_amount` -/

/-- The static currency alias table `MAPPING` of `extract_monetary_amount`. -/
def MAPPING : List (String × String) :=
  [("österreichische schilling", "at shillings"), ("florins", "de florins"),
   ("fl", "de florins"), ("fl.", "de florins"), ("pounds", "gb pounds"),
   ("livres", "fr livres"), ("guineas", "gb guineas"), ("reichsmark", "de reichsmarks")]

/-- Python `data.get(k)` on a string-keyed record. -/
def dget (data : List (String × String)) (k : String) : Option String :=
  (data.find? (fun p => p.1 == k)).map (·.2)

/-- Python `k in data`. -/
def dmem (data : List (String × String)) (k : String) : Bool := (dget data k).isSome

/-- Python `data.get(k1, data.get(k2))`. -/
def getFallback (data : List (String × String)) (k1 k2 : String) : Option String :=
  match dget data k1 with
  | some v => some v
  | none => dget data k2

/-- Modelled from the spec: the three result classes of
`extract_monetary_amount` (`vocab.EstimatedPrice`, `vocab.StartingPrice`,
`model.MonetaryAmount`; the vocabulary module is outside `src/`). -/
inductive PriceClass
  | estimatedPrice
  | startingPrice
  | monetaryAmount
deriving DecidableEq

/-- Modelled from the spec: an annotation attached via `referred_to_by`
(`vocab.BibliographyStatement` or `vocab.Note`). -/
inductive RefStmt
  | bibliography (content : String)
  | note (content : String)
deriving DecidableEq

/-- The `price_amount` variable, which holds a string until `float()`
succeeds and a float afterwards. -/
inductive StrOrNum
  | s (v : String)
  | f (q : ℚ)
deriving DecidableEq

/-- Python truthiness (`''` and `0.0` falsy). -/
def StrOrNum.truthy : StrOrNum → Bool
  | .s v => v != ""
  | .f q => q != 0

/-- Python `'%s' %` rendering. -/
def StrOrNum.pstr : StrOrNum → String
  | .s v => v
  | .f q => floatStr q

/-- Modelled from the spec: the monetary-amount record produced by
`extract_monetary_amount` — class, annotations, optional numeric value,
display label (`_label`), attached `model.Name` content (`identified_by`)
and the resolved currency instance. -/
structure Amnt where
  cls : PriceClass
  refs : List RefStmt
  value : Option ℚ
  label : Option String
  identified_by : Option String
  currency : Option String
deriving DecidableEq

/-- `extract_monetary_amount(data)` with the currency registry
(`vocab.instances`) as an explicit parameter mapping registry keys to
instances. -/
def extract_monetary_amount (instances : String → Option String)
    (data : List (String × String)) : Option Amnt × List Warn :=
  let sel : PriceClass × Option String × Option String × Option String × Option String :=
    if dmem data "est_price" then
      (.estimatedPrice, getFallback data "est_price_amount" "est_price",
       getFallback data "est_price_currency" "est_price_curr",
       getFallback data "est_price_note" "est_price_desc",
       dget data "est_price_citation")
    else if dmem data "start_price" then
      (.startingPrice, getFallback data "start_price_amount" "start_price",
       getFallback data "start_price_currency" "start_price_curr",
       getFallback data "start_price_note" "start_price_desc",
       dget data "start_price_citation")
    else
      (.monetaryAmount, getFallback data "price_amount" "price",
       getFallback data "price_currency" "price_curr",
       getFallback data "price_note" "price_desc",
       dget data "price_citation")
  let cls := sel.1
  let pa := sel.2.1
  let pc := sel.2.2.1
  let note := sel.2.2.2.1
  let cite := sel.2.2.2.2
  if optTruthy pa || optTruthy pc then
    let refs : List RefStmt :=
      (match cite with
       | some c => if c != "" then [RefStmt.bibliography c] else []
       | none => []) ++
      (match note with
       | some n => if n != "" then [RefStmt.note n] else []
       | none => [])
    let num : Option ℚ × Option String × Option StrOrNum :=
      match pa with
      | some a =>
        if a != "" then
          match pyFloat (pyStrip (pyReplace (pyReplace a "[?]" "") "?" "")) with
          | some q => (some q, none, some (.f q))
          | none => (none, some a, some (.s a))
        else (none, none, some (.s a))
      | none => (none, none, none)
    let value := num.1
    let identified := num.2.1
    let paN := num.2.2
    let pc2 : Option String :=
      match pc with
      | some c =>
        if dmem MAPPING c then
          match dget MAPPING (pyLower c) with
          | some m => some m
          | none => some c
        else some c
      | none => none
    let curw : Option String × List Warn :=
      match pc2 with
      | some c =>
        if c != "" then
          match instances c with
          | some inst => (some inst, [])
          | none => (none, [Warn.noCurrency c])
        else (none, [])
      | none => (none, [])
    let paTruthy : Bool :=
      match paN with
      | some x => x.truthy
      | none => false
    let label : Option String :=
      if paTruthy && optTruthy pc2 then
        some ((paN.map StrOrNum.pstr).getD "" ++ " " ++ pc2.getD "")
      else if paTruthy then some ((paN.map StrOrNum.pstr).getD "")
      else none
    (some ⟨cls, refs, value, label, identified, curw.1⟩, curw.2)
  else (none, [])

/-- Modelled from the spec: a currency registry containing the canonical
name the alias table resolves to. -/
def stdCurrencies (c : String) : Option String :=
  if c == "gb pounds" then some "gb-pounds-instance" else none

/-! ### Spec-side accumulator definitions (for comparison with the code) -/

/-- The numeric value of one measurement (`float(d.value)`, defaulting to
`0`; used only under a parseability hypothesis, or for counting the spec's
accumulators where unrecognized units contribute to none of them). -/
def dimQ (d : Dimension) : ℚ := (pyFloat d.value).getD 0

/-- The spec's inches accumulator (feet contribute `12 × value`), folded
from `a`. -/
def sumIFrom (a : ℚ) (dims : List Dimension) : ℚ :=
  dims.foldl (fun acc d =>
    if d.unit == some "inches" then qadd acc (dimQ d)
    else if d.unit == some "feet" then qadd acc (qmul 12 (dimQ d))
    else acc) a

/-- The spec's cm accumulator, folded from `a`. -/
def sumCFrom (a : ℚ) (dims : List Dimension) : ℚ :=
  dims.foldl (fun acc d => if d.unit == some "cm" then qadd acc (dimQ d) else acc) a

/-- The spec's unit-less accumulator, folded from `a`. -/
def sumUFrom (a : ℚ) (dims : List Dimension) : ℚ :=
  dims.foldl (fun acc d => if d.unit == none then qadd acc (dimQ d) else acc) a

/-- Definition following the spec's words: the number of non-zero
accumulators among {inches, cm, unit-less} for a measurement group. -/
def specNonzeroAccums (dims : List Dimension) : ℕ :=
  (if sumIFrom 0 dims ≠ 0 then 1 else 0) + (if sumCFrom 0 dims ≠ 0 then 1 else 0) +
    (if sumUFrom 0 dims ≠ 0 then 1 else 0)

/-- The units the canonicalizer can produce. -/
def goodUnits : List (Option String) := [some "inches", some "feet", some "cm", none]

/-! ### Helper lemmas -/

theorem canonical_unit_mem (x : Option String) : canonical_unit x ∈ goodUnits := by
  cases x with
  | none => simp [canonical_unit, goodUnits]
  | some v =>
    simp only [canonical_unit]
    split_ifs <;> simp [goodUnits]

theorem canonical_which_cases (x : Option String) :
    (canonical_which x).1 = none ∨ (canonical_which x).1 = some "width" ∨
      (canonical_which x).1 = some "height" := by
  cases x with
  | none => left; rfl
  | some v =>
    simp only [canonical_which]
    split_ifs <;> simp

theorem canonical_which_idem (x : Option String) :
    (canonical_which ((canonical_which x).1)).1 = (canonical_which x).1 := by
  rcases canonical_which_cases x with h | h | h <;> rw [h] <;> decide

theorem truthy_iff (x : PyNum) : x.truthy = true ↔ x.q ≠ 0 := by
  cases x with
  | i n => simp [PyNum.truthy, PyNum.q]
  | f q => simp [PyNum.truthy, PyNum.q]

theorem ifTruthy (x : PyNum) : (if x.truthy then (1 : ℕ) else 0) = if x.q ≠ 0 then 1 else 0 := by
  by_cases h : x.q = 0
  · have hx : x.truthy = false := by
      rw [← Bool.not_eq_true]
      simp [truthy_iff, h]
    simp [hx, h]
  · have hx : x.truthy = true := (truthy_iff x).mpr h
    simp [hx, h]

theorem normLoop_done (dims : List Dimension) : ∀ st : NState,
    (∀ d ∈ dims, d.unit ∈ goodUnits) →
    (∀ d ∈ dims, (pyFloat d.value).isSome = true) →
    ∃ st' : NState, normLoop st dims = .done st' ∧
      st'.inches.q = sumIFrom st.inches.q dims ∧
      st'.cm.q = sumCFrom st.cm.q dims ∧
      st'.unknown.q = sumUFrom st.unknown.q dims := by
  induction dims with
  | nil =>
    intro st _ _
    exact ⟨st, rfl, rfl, rfl, rfl⟩
  | cons d ds ih =>
    intro st hu hv
    have hu0 : d.unit ∈ goodUnits := hu d (List.mem_cons_self _ _)
    have hv0 : (pyFloat d.value).isSome = true := hv d (List.mem_cons_self _ _)
    obtain ⟨q, hq⟩ := Option.isSome_iff_exists.mp hv0
    have hu2 : ∀ x ∈ ds, x.unit ∈ goodUnits := fun x hx => hu x (List.mem_cons_of_mem _ hx)
    have hv2 : ∀ x ∈ ds, (pyFloat x.value).isSome = true :=
      fun x hx => hv x (List.mem_cons_of_mem _ hx)
    have hdq : dimQ d = q := by simp [dimQ, hq]
    rcases (show d.unit = some "inches" ∨ d.unit = some "feet" ∨ d.unit = some "cm" ∨
        d.unit = none by simpa [goodUnits] using hu0) with h | h | h | h
    · obtain ⟨st', h1, h2, h3, h4⟩ :=
        ih ⟨st.unknown, st.inches.addF q, st.cm, d.which⟩ hu2 hv2
      refine ⟨st', ?_, ?_, ?_, ?_⟩
      · simpa [normLoop, h, hq] using h1
      · simpa [sumIFrom, h, hdq, PyNum.addF, PyNum.q] using h2
      · simpa [sumCFrom, h] using h3
      · simpa [sumUFrom, h] using h4
    · obtain ⟨st', h1, h2, h3, h4⟩ :=
        ih ⟨st.unknown, st.inches.addF (qmul 12 q), st.cm, d.which⟩ hu2 hv2
      refine ⟨st', ?_, ?_, ?_, ?_⟩
      · simpa [normLoop, h, hq] using h1
      · simpa [sumIFrom, h, hdq, PyNum.addF, PyNum.q] using h2
      · simpa [sumCFrom, h] using h3
      · simpa [sumUFrom, h] using h4
    · obtain ⟨st', h1, h2, h3, h4⟩ :=
        ih ⟨st.unknown, st.inches, st.cm.addF q, d.which⟩ hu2 hv2
      refine ⟨st', ?_, ?_, ?_, ?_⟩
      · simpa [normLoop, h, hq] using h1
      · simpa [sumIFrom, h] using h2
      · simpa [sumCFrom, h, hdq, PyNum.addF, PyNum.q] using h3
      · simpa [sumUFrom, h] using h4
    · obtain ⟨st', h1, h2, h3, h4⟩ :=
        ih ⟨st.unknown.addF q, st.inches, st.cm, d.which⟩ hu2 hv2
      refine ⟨st', ?_, ?_, ?_, ?_⟩
      · simpa [normLoop, h, hq] using h1
      · simpa [sumIFrom, h] using h2
      · simpa [sumCFrom, h] using h3
      · simpa [sumUFrom, h, hdq, PyNum.addF, PyNum.q] using h4

theorem normLoop_no_unrec (dims : List Dimension) : ∀ st u,
    (∀ d ∈ dims, d.unit ∈ goodUnits) → normLoop st dims ≠ .unrec u := by
  induction dims with
  | nil => intro st u _ h; exact LoopOut.noConfusion h
  | cons d ds ih =>
    intro st u hu h
    have hu0 : d.unit ∈ goodUnits := hu d (List.mem_cons_self _ _)
    have hu2 : ∀ x ∈ ds, x.unit ∈ goodUnits := fun x hx => hu x (List.mem_cons_of_mem _ hx)
    rcases (show d.unit = some "inches" ∨ d.unit = some "feet" ∨ d.unit = some "cm" ∨
        d.unit = none by simpa [goodUnits] using hu0) with h0 | h0 | h0 | h0 <;>
      · simp only [normLoop, h0] at h
        rcases hq : pyFloat d.value with _ | q <;> rw [hq] at h <;> simp at h
        · exact ih _ u hu2 h

theorem normLoop_which (dims : List Dimension) : ∀ st st' v,
    (∀ d ∈ dims, d.which = v) → (dims = [] → st.which = v) →
    normLoop st dims = .done st' → st'.which = v := by
  induction dims with
  | nil =>
    intro st st' v _ hst h
    cases h
    exact hst rfl
  | cons d ds ih =>
    intro st st' v hw hst h
    have hw0 : d.which = v := hw d (List.mem_cons_self _ _)
    have hw2 : ∀ x ∈ ds, x.which = v := fun x hx => hw x (List.mem_cons_of_mem _ hx)
    simp only [normLoop] at h
    split at h
    · rcases hq : pyFloat d.value with _ | q <;> rw [hq] at h
      · exact absurd h (by simp)
      · exact ih _ _ _ hw2 (fun _ => hw0) h
    · split at h
      · rcases hq : pyFloat d.value with _ | q <;> rw [hq] at h
        · exact absurd h (by simp)
        · exact ih _ _ _ hw2 (fun _ => hw0) h
      · split at h
        · rcases hq : pyFloat d.value with _ | q <;> rw [hq] at h
          · exact absurd h (by simp)
          · exact ih _ _ _ hw2 (fun _ => hw0) h
        · split at h
          · rcases hq : pyFloat d.value with _ | q <;> rw [hq] at h
            · exact absurd h (by simp)
            · exact ih _ _ _ hw2 (fun _ => hw0) h
          · exact absurd h (by simp)

theorem parseLoop_units : ∀ (ts : List Token) (w : Option String) (acc : List Dimension)
    (ws : List Warn) (dims : List Dimension) (ws2 : List Warn),
    (∀ d ∈ acc, d.unit ∈ goodUnits) →
    parseLoop ts w acc ws = (some dims, ws2) → ∀ d ∈ dims, d.unit ∈ goodUnits := by
  intro ts
  induction ts with
  | nil =>
    intro w acc ws dims ws2 hacc h
    simp only [parseLoop] at h
    split at h
    · simp at h
    · obtain ⟨h1, _⟩ := Prod.mk.injEq .. ▸ h
      cases h1
      exact hacc
  | cons t ts ih =>
    intro w acc ws dims ws2 hacc h
    simp only [parseLoop] at h
    rcases hcv : canonical_value t.val with _ | v <;> simp only [hcv] at h
    · simp at h
    · split at h
      · simp at h
      · refine ih _ _ _ _ _ ?_ h
        intro d hd
        rcases List.mem_append.mp hd with hd | hd
        · exact hacc d hd
        · simp at hd
          subst hd
          exact canonical_unit_mem t.unit

theorem parseLoop_which : ∀ (ts : List Token) (w : Option String) (v : Option String)
    (acc : List Dimension) (ws : List Warn) (dims : List Dimension) (ws2 : List Warn),
    (canonical_which w).1 = v → (∀ d ∈ acc, d.which = v) →
    parseLoop ts w acc ws = (some dims, ws2) → ∀ d ∈ dims, d.which = v := by
  intro ts
  induction ts with
  | nil =>
    intro w v acc ws dims ws2 _ hacc h
    simp only [parseLoop] at h
    split at h
    · simp at h
    · obtain ⟨h1, _⟩ := Prod.mk.injEq .. ▸ h
      cases h1
      exact hacc
  | cons t ts ih =>
    intro w v acc ws dims ws2 hv hacc h
    simp only [parseLoop] at h
    rcases hcv : canonical_value t.val with _ | cv <;> simp only [hcv] at h
    · simp at h
    · split at h
      · simp at h
      · refine ih _ _ _ _ _ _ ?_ ?_ h
        · rw [hv, ← hv, canonical_which_idem, hv]
        · intro d hd
          rcases List.mem_append.mp hd with hd | hd
          · exact hacc d hd
          · simp at hd
            subst hd
            exact hv

theorem parseLoop_some_ne_nil : ∀ (ts : List Token) (w : Option String) (acc : List Dimension)
    (ws : List Warn) (dims : List Dimension) (ws2 : List Warn),
    parseLoop ts w acc ws = (some dims, ws2) → dims ≠ [] := by
  intro ts
  induction ts with
  | nil =>
    intro w acc ws dims ws2 h
    simp only [parseLoop] at h
    split at h
    · simp at h
    · obtain ⟨h1, _⟩ := Prod.mk.injEq .. ▸ h
      cases h1
      simp_all [List.isEmpty_iff]
  | cons t ts ih =>
    intro w acc ws dims ws2 h
    simp only [parseLoop] at h
    rcases hcv : canonical_value t.val with _ | cv <;> simp only [hcv] at h
    · simp at h
    · split at h
      · simp at h
      · exact ih _ _ _ _ _ h

theorem parseLoop_fail : ∀ (ts : List Token) (w : Option String) (acc : List Dimension)
    (ws : List Warn), (∃ t ∈ ts, canonical_value t.val = none) →
    (parseLoop ts w acc ws).1 = none := by
  intro ts
  induction ts with
  | nil =>
    intro w acc ws h
    simp at h
  | cons t ts ih =>
    intro w acc ws hex
    simp only [parseLoop]
    rcases hcv : canonical_value t.val with _ | cv
    · simp only [hcv]
    · simp only [hcv]
      obtain ⟨t2, ht2, hfail⟩ := hex
      rcases List.mem_cons.mp ht2 with h | h
      · subst h
        rw [hcv] at hfail
        exact absurd hfail (by simp)
      · split
        · rfl
        · exact ih _ _ _ ⟨t2, h, hfail⟩

theorem parseLoop_fail_warn : ∀ (ts : List Token) (w : Option String) (acc : List Dimension)
    (ws : List Warn), (∃ t ∈ ts, canonical_value t.val = none) →
    ∃ t2, t2 ∈ ts ∧ (canonical_value t2.val = none ∨ canonical_value t2.val = some "") ∧
      Warn.badValue t2.val ∈ (parseLoop ts w acc ws).2 := by
  intro ts
  induction ts with
  | nil =>
    intro w acc ws h
    simp at h
  | cons t ts ih =>
    intro w acc ws hex
    rcases hcv : canonical_value t.val with _ | cv
    · refine ⟨t, List.mem_cons_self _ _, Or.inl hcv, ?_⟩
      simp [parseLoop, hcv]
    · by_cases hemp : cv = ""
      · refine ⟨t, List.mem_cons_self _ _, Or.inr (hemp ▸ hcv), ?_⟩
        simp [parseLoop, hcv, hemp]
      · obtain ⟨t2, ht2, hfail⟩ := hex
        have ht2' : t2 ∈ ts := by
          rcases List.mem_cons.mp ht2 with h | h
          · subst h
            rw [hcv] at hfail
            exact absurd hfail (by simp)
          · exact h
        simp only [parseLoop, hcv]
        rw [if_neg (by simp [hemp])]
        obtain ⟨t3, ht3, hf3, hw3⟩ := ih _ _ _ ⟨t2, ht2', hfail⟩
        exact ⟨t3, List.mem_cons_of_mem _ ht3, hf3, hw3⟩

theorem buildLabels_some (dims : List Dimension)
    (h : ∀ d ∈ dims, d.unit ∈ goodUnits) : (buildLabels dims).isSome = true := by
  induction dims with
  | nil => rfl
  | cons d ds ih =>
    have h0 := h d (List.mem_cons_self _ _)
    have h2 : ∀ x ∈ ds, x.unit ∈ goodUnits := fun x hx => h x (List.mem_cons_of_mem _ hx)
    obtain ⟨l, hl⟩ := Option.isSome_iff_exists.mp (ih h2)
    rcases (show d.unit = some "inches" ∨ d.unit = some "feet" ∨ d.unit = some "cm" ∨
        d.unit = none by simpa [goodUnits] using h0) with h1 | h1 | h1 | h1 <;>
      simp [buildLabels, h1, hl]

theorem normalize_no_label (dims : List Dimension) :
    Warn.unrecUnitLabel ∉ (normalize_dimension dims).2 := by
  rcases hl : normLoop ⟨.i 0, .i 0, .i 0, none⟩ dims with _ | u | st <;>
    simp only [normalize_dimension, hl]
  · simp
  · simp
  · split_ifs <;> simp

theorem parse_pair_of_fst {v : String} {w : Option String} {dims : List Dimension}
    (h : (parse_simple_dimensions (some v) w).1 = some dims) :
    parse_simple_dimensions (some v) w = (some dims, (parse_simple_dimensions (some v) w).2) := by
  rw [← h]

theorem parse_which1 (v : String) (w : Option String) (dims : List Dimension)
    (h : (parse_simple_dimensions (some v) w).1 = some dims) :
    ∀ d ∈ dims, d.which = (canonical_which w).1 :=
  parseLoop_which _ _ _ _ _ _ _ rfl (by simp) (parse_pair_of_fst h)

/-! ### The claims -/

/-- C1: for the group `[Dimension("10","feet",None), Dimension("3","inches",None)]`,
`normalized_dimension_object` returns the pair
`(Dimension("123.0","inches",None), "10 feet, 3 inches")`: feet contribute 12
times their value into the inches accumulator, and the label is the
comma-joined rendering of each original measurement in input order. -/
theorem claim_C1 :
    normalized_dimension_object [⟨"10", some "feet", none⟩, ⟨"3", some "inches", none⟩] =
      (.ok ⟨"123.0", some "inches", none⟩ "10 feet, 3 inches", []) := by decide

/-- C2 (code bug): on the unit-less group `[Dimension("5",None,None)]`, whose
unit-less accumulator sums to `5 ≠ 0`, `normalize_dimension` returns value
`"0"` — `str` of the untouched `cm` accumulator — instead of the unit-less
sum the spec describes. -/
theorem claim_C2_code_eval :
    normalize_dimension [⟨"5", none, none⟩] = (.ok (some ⟨"0", none, none⟩), []) ∧
      sumUFrom 0 [⟨"5", none, none⟩] = 5 ∧ ("0" : String) ≠ "5.0" := by decide

/-- C3 counterexample: the group `[Dimension("3","inches",None),
Dimension("1","furlong",None)]` has exactly one non-zero accumulator among
{inches, cm, unit-less}, yet `normalize_dimension` returns `None` (the
unrecognized unit aborts the loop), refuting the claim's "exactly when". -/
theorem claim_C3_counterexample :
    normalize_dimension [⟨"3", some "inches", none⟩, ⟨"1", some "furlong", none⟩] =
      (.ok none, [Warn.unrecUnitNorm "furlong"]) ∧
    specNonzeroAccums [⟨"3", some "inches", none⟩, ⟨"1", some "furlong", none⟩] = 1 := by decide

/-- C3 (amended): for every group whose units are all recognized
(inches/feet/cm/None) and whose values parse as floats,
`normalize_dimension` returns `None` (with a warning) exactly when the
number of non-zero accumulators among {inches, cm, unit-less} differs from
one; and such a failure aborts only that group: on `"1 in 2 cm x 3 cm"` the
first group is mixed (warned) while the second is still emitted by
`extract_physical_dimensions`. -/
theorem claim_C3 :
    (∀ dims : List Dimension, (∀ d ∈ dims, d.unit ∈ goodUnits) →
      (∀ d ∈ dims, (pyFloat d.value).isSome = true) →
      ((normalize_dimension dims).1 = .ok none ↔ specNonzeroAccums dims ≠ 1)) ∧
    extract_physical_dimensions stdInstances "1 in 2 cm x 3 cm" =
      (some [⟨.physicalDimension, "3 cm", "3.0", some "cm"⟩],
       [Warn.mixedSystems [⟨"1", some "inches", none⟩, ⟨"2", some "cm", none⟩]]) := by
  constructor
  · intro dims hu hv
    obtain ⟨st', hdone, h2, h3, h4⟩ := normLoop_done dims ⟨.i 0, .i 0, .i 0, none⟩ hu hv
    have h2' : st'.inches.q = sumIFrom 0 dims := by simpa [PyNum.q] using h2
    have h3' : st'.cm.q = sumCFrom 0 dims := by simpa [PyNum.q] using h3
    have h4' : st'.unknown.q = sumUFrom 0 dims := by simpa [PyNum.q] using h4
    have hused : (if st'.inches.truthy then (1 : ℕ) else 0) +
        (if st'.cm.truthy then 1 else 0) + (if st'.unknown.truthy then 1 else 0) =
        specNonzeroAccums dims := by
      rw [ifTruthy, ifTruthy, ifTruthy, h2', h3', h4']
      rfl
    simp only [normalize_dimension, hdone, hused]
    by_cases hsp : specNonzeroAccums dims = 1
    · rw [if_neg (by simp [hsp])]
      split_ifs <;> simp [hsp]
    · rw [if_pos hsp]
      simp [hsp]
  · decide

/-- C3 witness: the amended equivalence applied to the mixed group
`[Dimension("1","inches",None), Dimension("2","cm",None)]`. -/
theorem claim_C3_witness :
    (normalize_dimension [⟨"1", some "inches", none⟩, ⟨"2", some "cm", none⟩]).1 = .ok none :=
  (claim_C3.1 [⟨"1", some "inches", none⟩, ⟨"2", some "cm", none⟩]
    (by decide) (by decide)).mpr (by decide)

/-- C4 counterexample: on `"14 cm x 10 cm"` the two emitted records carry
values `"14.0"` and `"10.0"` (the normalizer renders `str(float)`), not
`"14"` and `"10"` as claimed. -/
theorem claim_C4_counterexample :
    ((extract_physical_dimensions stdInstances "14 cm x 10 cm").1.getD []).map
        DimRecord.value = ["14.0", "10.0"] ∧ ("14.0" : String) ≠ "14" := by decide

/-- C4 (amended): `extract_physical_dimensions("14 cm x 10 cm")` yields
exactly two records, with values `"14.0"` and `"10.0"`, both with unit `cm`
and unspecified axis (no w/h markers), in input order. -/
theorem claim_C4 :
    extract_physical_dimensions stdInstances "14 cm x 10 cm" =
      (some [⟨.physicalDimension, "14 cm", "14.0", some "cm"⟩,
             ⟨.physicalDimension, "10 cm", "10.0", some "cm"⟩], []) := by decide

/-- C5: for every input matched by the Dutch pattern, if the first marker
contains "breed" (case-insensitively) the first token group is assigned axis
width and the second height, otherwise the first is height and the second
width; and `"Hoog. 1 v. 6 d., Breed 2 v. 3 d."` yields a height group
normalizing to `"18.0"` inches and a width group normalizing to `"27.0"`
inches. -/
theorem claim_C5 :
    (∀ (s : String) (g : DutchGroups) (g1 g2 : List Dimension) (ws : List Warn),
      matchDutch s = some g →
      dutch_dimensions_cleaner_x2 s = (some [g1, g2], ws) →
      if pyIn "breed" (pyLower g.d1w) then
        (∀ d ∈ g1, d.which = some "width") ∧ (∀ d ∈ g2, d.which = some "height")
      else
        (∀ d ∈ g1, d.which = some "height") ∧ (∀ d ∈ g2, d.which = some "width")) ∧
    (dutch_dimensions_cleaner_x2 "Hoog. 1 v. 6 d., Breed 2 v. 3 d." =
      (some [[⟨"1", some "feet", some "height"⟩, ⟨"6", some "inches", some "height"⟩],
             [⟨"2", some "feet", some "width"⟩, ⟨"3", some "inches", some "width"⟩]], []) ∧
     normalize_dimension [⟨"1", some "feet", some "height"⟩, ⟨"6", some "inches", some "height"⟩] =
       (.ok (some ⟨"18.0", some "inches", some "height"⟩), []) ∧
     normalize_dimension [⟨"2", some "feet", some "width"⟩, ⟨"3", some "inches", some "width"⟩] =
       (.ok (some ⟨"27.0", some "inches", some "width"⟩), [])) := by
  constructor
  · intro s g g1 g2 ws hm h
    simp only [dutch_dimensions_cleaner_x2, hm] at h
    by_cases hb : pyIn "breed" (pyLower g.d1w) = true
    · rw [if_pos hb]
      simp only [hb, if_true] at h
      rcases hp1 : parse_simple_dimensions (some g.d1) (some "w") with ⟨o1, ws1⟩
      rcases hp2 : parse_simple_dimensions (some g.d2) (some "h") with ⟨o2, ws2⟩
      rw [hp1, hp2] at h
      rcases o1 with _ | d1 <;> rcases o2 with _ | d2 <;> simp at h
      obtain ⟨⟨hg1, hg2⟩, _⟩ := h
      subst hg1
      subst hg2
      constructor
      · intro d hd
        have := parse_which1 _ _ _ (by rw [hp1]) d hd
        simpa using this
      · intro d hd
        have := parse_which1 _ _ _ (by rw [hp2]) d hd
        simpa using this
    · rw [if_neg hb]
      simp only [if_neg hb] at h
      rcases hp1 : parse_simple_dimensions (some g.d1) (some "h") with ⟨o1, ws1⟩
      rcases hp2 : parse_simple_dimensions (some g.d2) (some "w") with ⟨o2, ws2⟩
      rw [hp1, hp2] at h
      rcases o1 with _ | d1 <;> rcases o2 with _ | d2 <;> simp at h
      obtain ⟨⟨hg1, hg2⟩, _⟩ := h
      subst hg1
      subst hg2
      constructor
      · intro d hd
        have := parse_which1 _ _ _ (by rw [hp1]) d hd
        simpa using this
      · intro d hd
        have := parse_which1 _ _ _ (by rw [hp2]) d hd
        simpa using this
  · refine ⟨by decide, by decide, by decide⟩

/-- C5 witness: the axis-assignment property applied to
`"Hoog. 1 v. 6 d., Breed 2 v. 3 d."` (first marker `"Hoog."`, no breed). -/
theorem claim_C5_witness :
    (∀ d ∈ [(⟨"1", some "feet", some "height"⟩ : Dimension),
            ⟨"6", some "inches", some "height"⟩], d.which = some "height") ∧
    (∀ d ∈ [(⟨"2", some "feet", some "width"⟩ : Dimension),
            ⟨"3", some "inches", some "width"⟩], d.which = some "width") := by
  have h := claim_C5.1 "Hoog. 1 v. 6 d., Breed 2 v. 3 d."
    ⟨"Hoog.", "1 v. 6 d.", "Breed", "2 v. 3 d."⟩
    [⟨"1", some "feet", some "height"⟩, ⟨"6", some "inches", some "height"⟩]
    [⟨"2", some "feet", some "width"⟩, ⟨"3", some "inches", some "width"⟩]
    [] (by decide) (by decide)
  rwa [if_neg (by decide)] at h

/-- C6: numeric canonicalization maps `"1 1/2 in"` to one Dimension with
value `"1.5"` and unit `"inches"`; and for every input whose token list
contains a token with a `/` surviving the substitutions, parsing of the
whole group fails (returns `None`) with a `badValue` warning naming a
token whose value failed canonicalization. -/
theorem claim_C6 :
    (parse_simple_dimensions (some "1 1/2 in") none =
      (some [⟨"1.5", some "inches", none⟩], [])) ∧
    (∀ (s : String) (hint : Option String) (t : Token),
      t ∈ findDims (pyStrip s) → pyIn "/" (canonicalValueSubst t.val) = true →
      (parse_simple_dimensions (some s) hint).1 = none ∧
      ∃ t2, t2 ∈ findDims (pyStrip s) ∧
        (canonical_value t2.val = none ∨ canonical_value t2.val = some "") ∧
        Warn.badValue t2.val ∈ (parse_simple_dimensions (some s) hint).2) := by
  refine ⟨by decide, ?_⟩
  intro s hint t ht hslash
  have hnone : canonical_value t.val = none := by simp [canonical_value, hslash]
  exact ⟨parseLoop_fail _ _ _ _ ⟨t, ht, hnone⟩, parseLoop_fail_warn _ _ _ _ ⟨t, ht, hnone⟩⟩

/-- C6 witness: `"1 1/3 in"` scans to a token whose value keeps its `/`, so
the whole parse fails. -/
theorem claim_C6_witness :
    (parse_simple_dimensions (some "1 1/3 in") none).1 = none :=
  (claim_C6.2 "1 1/3 in" none ⟨"1 1/3", some "in"⟩ (by decide) (by decide)).1

/-- C7: `extract_monetary_amount` selects the Estimated variant whenever
`est_price` is present; and on `{"est_price": "x", "est_price_amount":
"100[?]", "est_price_currency": "pounds"}` it returns an Estimated-Price
record with numeric value `100.0` (the `[?]` stripped) whose currency is the
registry instance for `"gb pounds"` obtained through the alias table. -/
theorem claim_C7 :
    (∀ (instances : String → Option String) (data : List (String × String)) (r : Amnt)
      (ws : List Warn), dmem data "est_price" = true →
      extract_monetary_amount instances data = (some r, ws) → r.cls = .estimatedPrice) ∧
    extract_monetary_amount stdCurrencies
      [("est_price", "x"), ("est_price_amount", "100[?]"), ("est_price_currency", "pounds")] =
      (some ⟨.estimatedPrice, [], some 100, some "100.0 gb pounds", none,
        some "gb-pounds-instance"⟩, []) := by
  constructor
  · intro instances data r ws hm h
    simp only [extract_monetary_amount, hm, if_true] at h
    split at h
    · obtain ⟨h1, _⟩ : some _ = some r ∧ _ := by simpa using h
      cases h1
      rfl
    · simp at h
  · decide

/-- C7 witness: the precedence property applied to the concrete estimated
record. -/
theorem claim_C7_witness :
    (⟨.estimatedPrice, [], some 100, some "100.0 gb pounds", none,
      some "gb-pounds-instance"⟩ : Amnt).cls = .estimatedPrice :=
  claim_C7.1 stdCurrencies
    [("est_price", "x"), ("est_price_amount", "100[?]"), ("est_price_currency", "pounds")]
    ⟨.estimatedPrice, [], some 100, some "100.0 gb pounds", none, some "gb-pounds-instance"⟩
    [] (by decide) (by decide)

/-- C8 counterexample: for `{"price": "x", "price_amount": "ab?c"}` the
cleaned text is `"abc"`, but the display name kept on the record is the
original `"ab?c"`, refuting "the raw cleaned text is kept as the display
name". -/
theorem claim_C8_counterexample :
    extract_monetary_amount stdCurrencies [("price", "x"), ("price_amount", "ab?c")] =
      (some ⟨.monetaryAmount, [], none, some "ab?c", some "ab?c", none⟩, []) ∧
    pyStrip (pyReplace (pyReplace "ab?c" "[?]" "") "?" "") = "abc" ∧
    ("ab?c" : String) ≠ "abc" := by decide

/-- C8 (amended): for every record `{"price": "x", "price_amount": a}` whose
amount text does not parse as a float after stripping `[?]`/`?` and
whitespace, no error is raised and no numeric value is set; the original
amount text (not the cleaned text) is kept as the record's display name —
in particular `a = "abc"` yields a Price-variant record with no numeric
value whose display name is `"abc"`. -/
theorem claim_C8 :
    ∀ a : String, a ≠ "" →
      pyFloat (pyStrip (pyReplace (pyReplace a "[?]" "") "?" "")) = none →
      extract_monetary_amount stdCurrencies [("price", "x"), ("price_amount", a)] =
        (some ⟨.monetaryAmount, [], none, some a, some a, none⟩, []) := by
  intro a ha hf
  have ha2 : (a != "") = true := by simpa using ha
  simp [extract_monetary_amount, dmem, dget, getFallback, List.find?, optTruthy, ha2, hf,
    StrOrNum.truthy, StrOrNum.pstr]

/-- C8 witness: the amended property applied to `a = "abc"`. -/
theorem claim_C8_witness :
    extract_monetary_amount stdCurrencies [("price", "x"), ("price_amount", "abc")] =
      (some ⟨.monetaryAmount, [], none, some "abc", some "abc", none⟩, []) :=
  claim_C8 "abc" (by decide) (by decide)

/-- C9: every Dimension produced by `parse_simple_dimensions` has unit
inches, feet, cm or None; consequently the unrecognized-unit failure
branches of `normalize_dimension` and of the label construction are
unreachable for parser-produced groups (their warnings can never be
emitted). -/
theorem claim_C9 :
    ∀ (s : String) (hint : Option String) (dims : List Dimension) (ws : List Warn),
      parse_simple_dimensions (some s) hint = (some dims, ws) →
      (∀ d ∈ dims, d.unit = some "inches" ∨ d.unit = some "feet" ∨ d.unit = some "cm" ∨
        d.unit = none) ∧
      (∀ u, Warn.unrecUnitNorm u ∉ (normalize_dimension dims).2) ∧
      Warn.unrecUnitLabel ∉ (normalized_dimension_object dims).2 := by
  intro s hint dims ws h
  have hu : ∀ d ∈ dims, d.unit ∈ goodUnits := parseLoop_units _ _ _ _ _ _ (by simp) h
  refine ⟨fun d hd => by simpa [goodUnits] using hu d hd, ?_, ?_⟩
  · intro u hmem
    rcases hl : normLoop ⟨.i 0, .i 0, .i 0, none⟩ dims with _ | u2 | st
    · simp [normalize_dimension, hl] at hmem
    · exact normLoop_no_unrec dims _ u2 hu hl
    · simp only [normalize_dimension, hl] at hmem
      split_ifs at hmem <;> simp at hmem
  · rcases hn : normalize_dimension dims with ⟨res, ws2⟩
    have hws2 : Warn.unrecUnitLabel ∉ ws2 := by
      have h2 := normalize_no_label dims
      rw [hn] at h2
      exact h2
    rcases res with _ | ond
    · simpa [normalized_dimension_object, hn] using hws2
    · rcases ond with _ | nd
      · simpa [normalized_dimension_object, hn] using hws2
      · obtain ⟨ls, hls⟩ := Option.isSome_iff_exists.mp (buildLabels_some dims hu)
        simpa [normalized_dimension_object, hn, hls] using hws2

/-- C9 witness: the invariant applied to the parse of `"1 cm"`. -/
theorem claim_C9_witness :
    (∀ d ∈ [(⟨"1", some "cm", none⟩ : Dimension)],
      d.unit = some "inches" ∨ d.unit = some "feet" ∨ d.unit = some "cm" ∨ d.unit = none) ∧
    (∀ u, Warn.unrecUnitNorm u ∉ (normalize_dimension [⟨"1", some "cm", none⟩]).2) ∧
    Warn.unrecUnitLabel ∉ (normalized_dimension_object [⟨"1", some "cm", none⟩]).2 :=
  claim_C9 "1 cm" none [⟨"1", some "cm", none⟩] [] (by decide)

/-- C10: all Dimensions in a list returned by `parse_simple_dimensions`
carry the same `which` value, drawn from {width, height, None}; hence
`normalize_dimension` (which takes its axis from the last element) assigns
the axis shared by the whole group. -/
theorem claim_C10 :
    ∀ (s : String) (hint : Option String) (dims : List Dimension) (ws : List Warn),
      parse_simple_dimensions (some s) hint = (some dims, ws) →
      ∃ v, (v = some "width" ∨ v = some "height" ∨ v = none) ∧
        (∀ d ∈ dims, d.which = v) ∧
        (∀ nd, (normalize_dimension dims).1 = .ok (some nd) → nd.which = v) := by
  intro s hint dims ws h
  have hw : ∀ d ∈ dims, d.which = (canonical_which hint).1 :=
    parseLoop_which _ _ _ _ _ _ _ rfl (by simp) h
  have hne : dims ≠ [] := parseLoop_some_ne_nil _ _ _ _ _ _ h
  refine ⟨(canonical_which hint).1, ?_, hw, ?_⟩
  · rcases canonical_which_cases hint with h1 | h1 | h1 <;> simp [h1]
  · intro nd hnd
    rcases hl : normLoop ⟨.i 0, .i 0, .i 0, none⟩ dims with _ | u | st
    · simp [normalize_dimension, hl] at hnd
    · simp [normalize_dimension, hl] at hnd
    · have hst : st.which = (canonical_which hint).1 :=
        normLoop_which dims _ _ _ hw (fun hnil => absurd hnil hne) hl
      simp only [normalize_dimension, hl] at hnd
      split_ifs at hnd <;> simp at hnd <;> rw [← hst, ← hnd]

/-- C10 witness: the uniform-axis property applied to the parse of
`"1 cm"`. -/
theorem claim_C10_witness :
    ∃ v, (v = some "width" ∨ v = some "height" ∨ v = none) ∧
      (∀ d ∈ [(⟨"1", some "cm", none⟩ : Dimension)], d.which = v) ∧
      (∀ nd, (normalize_dimension [⟨"1", some "cm", none⟩]).1 = .ok (some nd) →
        nd.which = v) :=
  claim_C10 "1 cm" none [⟨"1", some "cm", none⟩] [] (by decide)

end Crom
